import Mathlib

/-!
The speccy2010 firmware stub `libnosys/readlink.c`.

Verification development for the stub

    extern int errno;

    int _readlink( const char *path, char *buf, size_t bufsize )
    {
      errno = ENOSYS;
      return -1;
    }

The C state is made explicit, at two levels of detail.

* `State` keeps the global `int errno` as a cell of its own next to a
  byte-addressed memory in which an address may be unmapped; `mem` is then the
  memory outside the `errno` object.  C statements are computations in a
  state-and-fault monad; a load or a store through an unmapped address faults.
* `Flat.Mem` is one byte-addressed memory in which `errno` is an ordinary object
  of `sizeof(int) = 4` bytes at the address `errnoAddr`, so that a `char *` can
  point into it.  `errno = ENOSYS;` is there a word store at `errnoAddr`
  (little-endian, as on the ARM target).  `flat_simulates` relates the two.

The value of the `ENOSYS` constant comes from `<errno.h>`, which is not part of
the sources, so every definition takes it as the argument `ENOSYS`; the address
the linker gives `errno` is the argument `errnoAddr`.
-/

set_option linter.unusedVariables false

namespace Speccy2010

/-! ## Data model -/

/-- The ways a C computation can go wrong on the explicit memory. -/
inductive Fault where
  | badRead (addr : Nat)
  | badWrite (addr : Nat)
  deriving DecidableEq, Repr

/-- Addresses are naturals, `0` is the null pointer. -/
abbrev Ptr := Nat

/-- The null pointer. -/
def NULL : Ptr := 0

/-- Explicit machine state: the global `errno` (a C `int`) and the byte memory,
where `none` marks an unmapped address.  The `errno` cell is kept apart from
`mem`, which stands for the memory outside the `errno` object; `Flat.Mem` is the
model in which `errno` has an address. -/
structure State where
  errno : Int
  mem : Ptr → Option Nat

/-- C computations: state passing, with a fault as the failure result. -/
abbrev Exec (α : Type) := StateT State (Except Fault) α

/-! ## Memory and `errno` primitives -/

/-- Read the byte at `p`; faults when `p` is unmapped. -/
def load (p : Ptr) : Exec Nat := fun s =>
  match s.mem p with
  | some b => Except.ok (b, s)
  | none => Except.error (Fault.badRead p)

/-- Write the byte `b` at `p`; faults when `p` is unmapped. -/
def store (p : Ptr) (b : Nat) : Exec Unit := fun s =>
  match s.mem p with
  | some _ => Except.ok ((), { s with mem := fun a => if a = p then some b else s.mem a })
  | none => Except.error (Fault.badWrite p)

/-- The assignment `errno = v;`. -/
def setErrno (v : Int) : Exec Unit := fun s =>
  Except.ok ((), { s with errno := v })

/-! ## The function -/

/-- Embedding of `int _readlink(const char *path, char *buf, size_t bufsize)`:
`errno = ENOSYS; return -1;`. -/
def _readlink (ENOSYS : Int) (path : Ptr) (buf : Ptr) (bufsize : Nat) : Exec Int := do
  setErrno ENOSYS
  return -1

/-! ## Concrete states used in the scenarios -/

/-- The bytes of the C string `"/tmp/x"`, terminator included. -/
def tmpxBytes : List Nat := [47, 116, 109, 112, 47, 120, 0]

/-- A ten byte pattern filling the caller's buffer. -/
def patternBytes : List Nat := [0xA0, 0xA1, 0xA2, 0xA3, 0xA4, 0xA5, 0xA6, 0xA7, 0xA8, 0xA9]

/-- Address of the path string in `scenarioState`. -/
def pathAddr : Ptr := 0x1000

/-- Address of the buffer in `scenarioState`. -/
def bufAddr : Ptr := 0x2000

/-- A state in which no address at all is mapped. -/
def unmappedState (e : Int) : State := { errno := e, mem := fun _ => none }

/-- The bytes of the region `[p, p + n)` as the memory holds them. -/
def readRegion (m : Ptr → Option Nat) (p : Ptr) (n : Nat) : List (Option Nat) :=
  (List.range n).map fun i => m (p + i)

/-! ## The address-level model: `errno` as an object in memory -/

namespace Flat

/-- One byte-addressed memory; `none` marks an unmapped address.  The global
`errno` lives in it. -/
abbrev Mem := Ptr → Option Nat

/-- C computations on the flat memory. -/
abbrev MExec (α : Type) := StateT Mem (Except Fault) α

/-- The size of a C `int` on the 32-bit ARM target. -/
def sizeofInt : Nat := 4

/-- The address `a` is one of the bytes of the `int` object at `errnoAddr`. -/
def inErrno (errnoAddr a : Ptr) : Prop := errnoAddr ≤ a ∧ a < errnoAddr + sizeofInt

instance (errnoAddr a : Ptr) : Decidable (inErrno errnoAddr a) :=
  inferInstanceAs (Decidable (errnoAddr ≤ a ∧ a < errnoAddr + sizeofInt))

/-- The `n` bytes from `p` on are all mapped.  For `errno`, a linked global,
`mapped m errnoAddr sizeofInt` is what makes `m` a memory of the program. -/
def mapped (m : Mem) (p : Ptr) (n : Nat) : Prop := ∀ i, i < n → (m (p + i)).isSome = true

instance (m : Mem) (p : Ptr) (n : Nat) : Decidable (mapped m p n) :=
  inferInstanceAs (Decidable (∀ i, i < n → (m (p + i)).isSome = true))

/-- Conversion of an integer value to the 32-bit two's complement `int`. -/
def wrapInt (v : Int) : Int :=
  if v % 4294967296 < 2147483648 then v % 4294967296 else v % 4294967296 - 4294967296

/-- Byte `i` of the little-endian 32-bit representation of `v`. -/
def intByte (v : Int) (i : Nat) : Nat := ((v % 4294967296).toNat / 256 ^ i) % 256

/-- A word store `*(int *)p = v`; faults when one of the four bytes is
unmapped. -/
def storeInt (p : Ptr) (v : Int) : MExec Unit := fun m =>
  if mapped m p sizeofInt then
    Except.ok ((), fun a => if p ≤ a ∧ a < p + sizeofInt then some (intByte v (a - p)) else m a)
  else Except.error (Fault.badWrite p)

/-- The `int` held by the four bytes at `p`, when they are mapped. -/
def loadInt (m : Mem) (p : Ptr) : Option Int := do
  let b0 ← m p
  let b1 ← m (p + 1)
  let b2 ← m (p + 2)
  let b3 ← m (p + 3)
  let u : Nat := b0 + 256 * b1 + 65536 * b2 + 16777216 * b3
  pure (if u < 2147483648 then (u : Int) else (u : Int) - 4294967296)

/-- Embedding of `int _readlink(const char *path, char *buf, size_t bufsize)` on
the flat memory, with `errno` the `int` object at `errnoAddr`:
`errno = ENOSYS; return -1;`. -/
def _readlink (errnoAddr : Ptr) (ENOSYS : Int) (path : Ptr) (buf : Ptr) (bufsize : Nat) :
    MExec Int := do
  storeInt errnoAddr ENOSYS
  return -1

/-- The `State` a flat memory stands for: `errno` read from its four bytes, and
the memory outside the `errno` object. -/
def absState (errnoAddr : Ptr) (m : Mem) : Option State :=
  (loadInt m errnoAddr).map fun e =>
    { errno := e, mem := fun a => if inErrno errnoAddr a then none else m a }

/-- Address of `errno` in `scenarioMem`. -/
def errnoCell : Ptr := 0x3000

/-- Memory holding `"/tmp/x"` at `pathAddr`, the pattern at `bufAddr` and a clear
`errno` at `errnoCell`; every other address is unmapped. -/
def scenarioMem : Mem := fun a =>
  if pathAddr ≤ a ∧ a < pathAddr + tmpxBytes.length then tmpxBytes.get? (a - pathAddr)
  else if bufAddr ≤ a ∧ a < bufAddr + patternBytes.length then patternBytes.get? (a - bufAddr)
  else if inErrno errnoCell a then some 0
  else none

end Flat

/-! ## Shared lemmas -/

/-- One call of `_readlink` never faults: it returns `-1` and the state with
`errno` replaced. -/
theorem readlink_run (ENOSYS : Int) (path buf : Ptr) (bufsize : Nat) (s : State) :
    (_readlink ENOSYS path buf bufsize).run s
      = Except.ok ((-1 : Int), { s with errno := ENOSYS }) := rfl

/-- The memory model can fault: a load through an unmapped address does. -/
theorem load_unmapped (p : Ptr) (s : State) (h : s.mem p = none) :
    (load p).run s = Except.error (Fault.badRead p) := by
  simp [load, StateT.run, h]

/-- A store through an unmapped address faults as well. -/
theorem store_unmapped (p : Ptr) (b : Nat) (s : State) (h : s.mem p = none) :
    (store p b).run s = Except.error (Fault.badWrite p) := by
  simp [store, StateT.run, h]

/-- On the flat memory one call of `_readlink` completes when the `errno`
object is mapped: it returns `-1` and overwrites the four bytes of `errno`. -/
theorem flat_run (errnoAddr : Ptr) (ENOSYS : Int) (path buf : Ptr) (bufsize : Nat)
    (m : Flat.Mem) (hmap : Flat.mapped m errnoAddr Flat.sizeofInt) :
    (Flat._readlink errnoAddr ENOSYS path buf bufsize).run m
      = Except.ok ((-1 : Int), fun a =>
          if errnoAddr ≤ a ∧ a < errnoAddr + Flat.sizeofInt
          then some (Flat.intByte ENOSYS (a - errnoAddr)) else m a) := by
  simp [Flat._readlink, Flat.storeInt, StateT.run, hmap, bind, StateT.bind, Except.bind, pure,
    StateT.pure, Except.pure]

/-- Reading back the word just stored gives the stored value as an `int`. -/
theorem loadInt_stored (p : Ptr) (v : Int) (m : Flat.Mem) :
    Flat.loadInt (fun a => if p ≤ a ∧ a < p + Flat.sizeofInt
          then some (Flat.intByte v (a - p)) else m a) p = some (Flat.wrapInt v) := by
  have h0 : (0 : Int) ≤ v % 4294967296 := Int.emod_nonneg _ (by norm_num)
  have h1 : v % 4294967296 < 4294967296 := Int.emod_lt_of_pos _ (by norm_num)
  obtain ⟨n, hn⟩ := Int.eq_ofNat_of_zero_le h0
  simp [Flat.loadInt, Flat.sizeofInt, Flat.intByte, Flat.wrapInt, hn]
  rw [hn] at h1
  have h2 : n < 4294967296 := by exact_mod_cast h1
  have h3 : n % 256 + 256 * (n / 256 % 256) + 65536 * (n / 65536 % 256)
      + 16777216 * (n / 16777216 % 256) = n := by omega
  rw [h3]
  split_ifs <;> first | rfl | omega

/-- An `int` value in range is not changed by the conversion to `int`. -/
theorem wrapInt_of_range (v : Int) (hlo : -2147483648 ≤ v) (hhi : v < 2147483648) :
    Flat.wrapInt v = v := by
  unfold Flat.wrapInt
  split_ifs <;> omega

/-- The field model is the flat model with the `errno` object hidden: a flat
call from a memory standing for `s` ends in a memory standing for the state the
field model reaches from `s`. -/
theorem flat_simulates (errnoAddr : Ptr) (ENOSYS : Int) (path buf : Ptr) (bufsize : Nat)
    (m : Flat.Mem) (s : State) (hmap : Flat.mapped m errnoAddr Flat.sizeofInt)
    (habs : Flat.absState errnoAddr m = some s) :
    ∃ (m1 : Flat.Mem) (t : State),
      (Flat._readlink errnoAddr ENOSYS path buf bufsize).run m = Except.ok ((-1 : Int), m1)
      ∧ (_readlink (Flat.wrapInt ENOSYS) path buf bufsize).run s = Except.ok ((-1 : Int), t)
      ∧ Flat.absState errnoAddr m1 = some t := by
  refine ⟨_, _, flat_run errnoAddr ENOSYS path buf bufsize m hmap, readlink_run _ _ _ _ _, ?_⟩
  unfold Flat.absState at habs ⊢
  rw [loadInt_stored]
  cases hl : Flat.loadInt m errnoAddr with
  | none => rw [hl] at habs; exact absurd habs (by simp)
  | some e =>
    rw [hl] at habs
    simp only [Option.map_some', Option.some.injEq] at habs ⊢
    subst habs
    simp only [State.mk.injEq, true_and]
    funext a
    by_cases h : Flat.inErrno errnoAddr a
    · simp [h]
    · have h2 : ¬ (errnoAddr ≤ a ∧ a < errnoAddr + Flat.sizeofInt) := h
      simp [h, h2]

/-- The scenario path region really holds the string `"/tmp/x"`. -/
theorem scenario_path_contents :
    readRegion Flat.scenarioMem pathAddr 7 = tmpxBytes.map some := by
  decide

/-- Claim C1: for every path, buffer and bufsize (null pointers and bufsize 0
included), every memory and every prior value of `errno`, the call completes
and the value it returns is the integer `-1`. -/
theorem readlink_returns_minus_one (ENOSYS : Int) (path buf : Ptr) (bufsize : Nat)
    (errno0 : Int) (mem0 : Ptr → Option Nat) :
    (∃ t : State,
        (_readlink ENOSYS path buf bufsize).run { errno := errno0, mem := mem0 }
          = Except.ok ((-1 : Int), t))
      ∧ (∃ t : State,
        (_readlink ENOSYS NULL NULL 0).run { errno := errno0, mem := mem0 }
          = Except.ok ((-1 : Int), t)) :=
  ⟨⟨_, rfl⟩, ⟨_, rfl⟩⟩

/-- Claim C2: for every path, buffer, bufsize and memory, and for every value
`errno` held before the call, the call completes and `errno` afterwards is
exactly `ENOSYS`; the prior value plays no part in it. -/
theorem readlink_sets_errno (ENOSYS : Int) (path buf : Ptr) (bufsize : Nat)
    (errno0 : Int) (mem0 : Ptr → Option Nat) :
    ∃ (r : Int) (t : State),
      (_readlink ENOSYS path buf bufsize).run { errno := errno0, mem := mem0 }
        = Except.ok (r, t)
      ∧ t.errno = ENOSYS :=
  ⟨_, _, rfl, rfl⟩

/-- Claim C4: the call is total with no precondition on its pointers.  With
reads through an unmapped address faulting, the call still completes from every
state, also when `path` and `buf` are unmapped and when no address is mapped at
all, where any load through `path` or `buf` faults; `_readlink(NULL, NULL, 0)`
completes with `-1` and `errno = ENOSYS`, from the unmapped state and from
every other state. -/
theorem readlink_total (ENOSYS : Int) (path buf : Ptr) (bufsize : Nat) (s : State)
    (errno0 : Int) :
    (∀ f : Fault, (_readlink ENOSYS path buf bufsize).run s ≠ Except.error f)
      ∧ (_readlink ENOSYS path buf bufsize).run (unmappedState errno0)
          = Except.ok ((-1 : Int), unmappedState ENOSYS)
      ∧ (load path).run (unmappedState errno0) = Except.error (Fault.badRead path)
      ∧ (load buf).run (unmappedState errno0) = Except.error (Fault.badRead buf)
      ∧ (_readlink ENOSYS NULL NULL 0).run (unmappedState errno0)
          = Except.ok ((-1 : Int), unmappedState ENOSYS)
      ∧ (unmappedState ENOSYS).errno = ENOSYS
      ∧ (_readlink ENOSYS NULL NULL 0).run s
          = Except.ok ((-1 : Int), { s with errno := ENOSYS }) := by
  refine ⟨fun f h => ?_, rfl, rfl, rfl, rfl, rfl, rfl⟩
  rw [readlink_run] at h
  exact Except.noConfusion h

/-- Claim C5: the outcome does not depend on the inputs: any two calls, with
whatever paths, buffers, bufsizes, memories and prior `errno` values, both
complete, return equal values and leave equal `errno` values. -/
theorem readlink_input_independent (ENOSYS : Int)
    (path1 buf1 : Ptr) (bufsize1 : Nat) (s1 : State)
    (path2 buf2 : Ptr) (bufsize2 : Nat) (s2 : State) :
    ∃ (r1 r2 : Int) (t1 t2 : State),
      (_readlink ENOSYS path1 buf1 bufsize1).run s1 = Except.ok (r1, t1)
      ∧ (_readlink ENOSYS path2 buf2 bufsize2).run s2 = Except.ok (r2, t2)
      ∧ r1 = r2
      ∧ t1.errno = t2.errno :=
  ⟨_, _, _, _, rfl, rfl, rfl, rfl⟩

/-- Claim C6: the call is idempotent on the state: from every initial state and
for every two argument triples, two calls in succession return the same value
and leave the same state (`errno` and memory) as one call, with either
triple. -/
theorem readlink_idempotent (ENOSYS : Int)
    (path1 buf1 : Ptr) (bufsize1 : Nat)
    (path2 buf2 : Ptr) (bufsize2 : Nat) (s : State) :
    (do
        let _ ← _readlink ENOSYS path1 buf1 bufsize1
        _readlink ENOSYS path2 buf2 bufsize2 : Exec Int).run s
      = (_readlink ENOSYS path1 buf1 bufsize1).run s
    ∧ (do
        let _ ← _readlink ENOSYS path1 buf1 bufsize1
        _readlink ENOSYS path2 buf2 bufsize2 : Exec Int).run s
      = (_readlink ENOSYS path2 buf2 bufsize2).run s :=
  ⟨rfl, rfl⟩

end Speccy2010
